import Mathlib

/-!
Verification development for the promotion-scraping pipeline
(`app/api/scrape-promotions/route.ts` of the benefind repository).

The TypeScript source is shallowly embedded: HTML documents are `List Char`,
each regex-based sanitization stage is translated to an executable scanning
function with the exact matching semantics of the corresponding JavaScript
regex (leftmost match, non-overlapping, continue after the match), the
chunker and the rate-limited chunk processor are fuel-based structural
recursions (fuel = remaining length, which strictly decreases), and every
external collaborator (browser, OpenAI completion, DOM queries) is an
explicit oracle parameter.
-/

/-! ### Character classes used by the JavaScript regexes -/

/-- JavaScript `\s` (WhiteSpace and LineTerminator code points). -/
def jsSpace (c : Char) : Bool :=
  c == ' ' || c == '\t' || c == '\n' || c == '\r' || c == '\x0B' || c == '\x0C' ||
  c == '\u00A0' || c == '\u1680' || ('\u2000' ≤ c && c ≤ '\u200A') ||
  c == '\u2028' || c == '\u2029' || c == '\u202F' || c == '\u205F' ||
  c == '\u3000' || c == '\uFEFF'

/-- JavaScript `\w` (word characters), used for the `\b` boundary check. -/
def wordChar (c : Char) : Bool :=
  ('a' ≤ c && c ≤ 'z') || ('A' ≤ c && c ≤ 'Z') || ('0' ≤ c && c ≤ '9') || c == '_'

/-- JavaScript LineTerminator code points (the characters `.` does not match,
and the characters matched by `[\r\n]` plus the two Unicode ones recognised
by multiline `^`). -/
def lineTerm (c : Char) : Bool :=
  c == '\n' || c == '\r' || c == '\u2028' || c == '\u2029'

/-- Case-insensitive ASCII comparison, the semantics of the `i` regex flag
for the ASCII-only literals appearing in the source patterns. -/
def lowEq (a b : Char) : Bool := a.toLower == b.toLower

/-- `matchesCI pat s`: `pat` is a case-insensitive prefix of `s`. -/
def matchesCI : List Char → List Char → Bool
  | [], _ => true
  | _ :: _, [] => false
  | p :: ps, c :: cs => lowEq p c && matchesCI ps cs

/-- `matchesHere pat s`: `pat` is an exact prefix of `s` (case-sensitive, the
semantics of `String.prototype.lastIndexOf`). -/
def matchesHere : List Char → List Char → Bool
  | [], _ => true
  | _ :: _, [] => false
  | p :: ps, c :: cs => p == c && matchesHere ps cs

/-- Index of the first case-insensitive occurrence of `pat` in `s`. -/
def findCI (pat : List Char) : List Char → Option Nat
  | [] => none
  | s@(_ :: rest) => if matchesCI pat s then some 0 else (findCI pat rest).map (· + 1)

/-- The `\b` word-boundary test after one of the tag literals (all of which
end in a word character): it holds iff the following character is absent or
is not a word character. -/
def boundaryOk : List Char → Bool
  | [] => true
  | c :: _ => !wordChar c

/-! ### Sanitizer (`sanitizeHTML`)

Each `.replace(..., "")` of the source is one scanning pass.  The block
regexes `/<tag\b[^<]*(?:(?!<\/tag>)<[^<]*)*<\/tag>/gi` match from a
case-insensitive `<tag` with a word boundary up to the first following
case-insensitive `</tag>`; the comment regex `/<!--[\s\S]*?-->/g` matches
from `<!--` to the first `-->` with no boundary check. -/

/-- One scanning pass removing every (leftmost, non-overlapping) span that
starts with `openT` (case-insensitively, with a `\b` check when `wb` is
true) and extends to the first following occurrence of `closeT`.  When no
closing occurrence exists the position is left intact and scanning resumes
one character later, exactly as the backtracking regex engine does.  Fuel
bounds the recursion; each step consumes at least one character, so fuel
equal to the length of the input is sufficient. -/
def removeBlocksGo (openT closeT : List Char) (wb : Bool) : Nat → List Char → List Char
  | 0, s => s
  | _ + 1, [] => []
  | fuel + 1, s@(c :: rest) =>
    if matchesCI openT s && (!wb || boundaryOk (s.drop openT.length)) then
      match findCI closeT (s.drop openT.length) with
      | some k => removeBlocksGo openT closeT wb fuel (s.drop (openT.length + k + closeT.length))
      | none => c :: removeBlocksGo openT closeT wb fuel rest
    else c :: removeBlocksGo openT closeT wb fuel rest

def removeBlocks (openT closeT : String) (wb : Bool) (s : List Char) : List Char :=
  removeBlocksGo openT.toList closeT.toList wb s.length s

/-- Index of the first `"` character. -/
def firstQuoteIdx : List Char → Option Nat
  | [] => none
  | c :: rest => if c == '"' then some 0 else (firstQuoteIdx rest).map (· + 1)

/-- One alternative `name="..."` of the attribute regex: the literal name
(case-insensitive), then `="`, then `[^"]*"`.  Returns the number of
characters consumed on success. -/
def tryNamedAttr (name : List Char) (l : List Char) : Option Nat :=
  if matchesCI name l then
    match l.drop name.length with
    | '=' :: '"' :: v =>
      match firstQuoteIdx v with
      | some j => some (name.length + 2 + j + 1)
      | none => none
    | _ => none
  else none

/-- The lazy tail of the `data-.*?="[^"]*"` alternative, scanning the text
after the literal `data-`.  Lazy `.*?` stops at the first `="`; `.` cannot
cross a line terminator; the value then runs to the first closing `"`.
(If the first `="` has no closing quote afterwards then no later `="` can
succeed either, since its opening quote would itself be such a quote.) -/
def dataScan : List Char → Option Nat
  | [] => none
  | '=' :: '"' :: v => (firstQuoteIdx v).map (fun j => 2 + j + 1)
  | c :: rest => if lineTerm c then none else (dataScan rest).map (· + 1)

def onclickPat : List Char := "onclick".toList
def onloadPat : List Char := "onload".toList
def onerrorPat : List Char := "onerror".toList
def idPat : List Char := "id".toList
def classPat : List Char := "class".toList
def stylePat : List Char := "style".toList
def dataDashPat : List Char := "data-".toList

/-- The attribute-body alternation
`(onclick|onload|onerror|id|class|style|data-.*?)="[^"]*"`, tried in source
order at the position right after the leading `\s` character. -/
def tryAttr (l : List Char) : Option Nat :=
  tryNamedAttr onclickPat l <|> tryNamedAttr onloadPat l <|>
  tryNamedAttr onerrorPat l <|> tryNamedAttr idPat l <|>
  tryNamedAttr classPat l <|> tryNamedAttr stylePat l <|>
  (if matchesCI dataDashPat l then (dataScan (l.drop 5)).map (fun d => 5 + d) else none)

/-- Scanning pass for `/\s(onclick|...|data-.*?)="[^"]*"/gi`. -/
def removeAttrsGo : Nat → List Char → List Char
  | 0, s => s
  | _ + 1, [] => []
  | fuel + 1, c :: rest =>
    if jsSpace c then
      match tryAttr rest with
      | some n => removeAttrsGo fuel (rest.drop n)
      | none => c :: removeAttrsGo fuel rest
    else c :: removeAttrsGo fuel rest

def removeAttrs (s : List Char) : List Char := removeAttrsGo s.length s

/-- Index (plus one) of the last line terminator inside the leading
whitespace run, i.e. the number of characters the greedy `^\s*[\r\n]`
match consumes at a line start. -/
def lastTermIn : List Char → Option Nat
  | [] => none
  | c :: rest =>
    match lastTermIn rest with
    | some i => some (i + 1)
    | none => if lineTerm c then some 0 else none

def wsRunSplit (s : List Char) : Option Nat :=
  match lastTermIn (s.takeWhile jsSpace) with
  | some i => some (i + 1)
  | none => none

/-- Scanning pass for `/^\s*[\r\n]/gm`: at every line start (string start or
right after a line terminator), the longest whitespace run ending in a line
terminator is removed. -/
def removeLineStartsGo : Nat → Bool → List Char → List Char
  | 0 => fun _ s => s
  | fuel + 1 => fun atStart s =>
    match s with
    | [] => []
    | c :: rest =>
      if atStart then
        match wsRunSplit (c :: rest) with
        | some n => removeLineStartsGo fuel true ((c :: rest).drop n)
        | none => c :: removeLineStartsGo fuel (lineTerm c) rest
      else c :: removeLineStartsGo fuel (lineTerm c) rest

def removeLineStarts (s : List Char) : List Char := removeLineStartsGo s.length true s

/-- Scanning pass for `.replace(/\s+/g, " ")`: every maximal whitespace run
becomes a single space. -/
def collapseWsGo : Nat → List Char → List Char
  | 0, s => s
  | _ + 1, [] => []
  | fuel + 1, c :: rest =>
    if jsSpace c then ' ' :: collapseWsGo fuel (rest.dropWhile jsSpace)
    else c :: collapseWsGo fuel rest

def collapseWs (s : List Char) : List Char := collapseWsGo s.length s

/-- JavaScript `String.prototype.trim` (strips `\s` from both ends). -/
def trimJS (s : List Char) : List Char :=
  ((s.dropWhile jsSpace).reverse.dropWhile jsSpace).reverse

def headOpen : String := "<head"
def headClose : String := "</head>"
def scriptOpen : String := "<script"
def scriptClose : String := "</script>"
def styleOpen : String := "<style"
def styleClose : String := "</style>"
def commentOpen : String := "<!--"
def commentClose : String := "-->"
def footerOpen : String := "<footer"
def footerClose : String := "</footer>"
def navOpen : String := "<nav"
def navClose : String := "</nav>"
def formOpen : String := "<form"
def formClose : String := "</form>"
def iframeOpen : String := "<iframe"
def iframeClose : String := "</iframe>"

/-- `sanitizeHTML` of the source: the eleven `.replace` passes followed by
`.trim()`, in source order. -/
def sanitizeHTML (html : List Char) : List Char :=
  trimJS (collapseWs (removeLineStarts (removeAttrs
    (removeBlocks iframeOpen iframeClose true
      (removeBlocks formOpen formClose true
        (removeBlocks navOpen navClose true
          (removeBlocks footerOpen footerClose true
            (removeBlocks commentOpen commentClose false
              (removeBlocks styleOpen styleClose true
                (removeBlocks scriptOpen scriptClose true
                  (removeBlocks headOpen headClose true html)))))))))))

/-! ### Chunker (`splitHTMLIntoChunks`) -/

def MAX_CHUNK_LENGTH : Nat := 15000

def divClose : List Char := "</div>".toList

/-- `String.prototype.lastIndexOf(pat, fromIdx)`: the largest index `i ≤
fromIdx` at which `pat` occurs, or `none` (JavaScript returns `-1`). -/
def lastIdxOfGo (pat : List Char) (fromIdx : Nat) : List Char → Nat → Option Nat → Option Nat
  | [], _, best => best
  | s@(_ :: rest), i, best =>
    if fromIdx < i then best
    else lastIdxOfGo pat fromIdx rest (i + 1) (if matchesHere pat s then some i else best)

def lastIndexOfFrom (pat : List Char) (s : List Char) (fromIdx : Nat) : Option Nat :=
  lastIdxOfGo pat fromIdx s 0 none

/-- The `while` loop of `splitHTMLIntoChunks`.  Each iteration consumes at
least one character, so fuel equal to the initial length is sufficient. -/
def splitChunksGo : Nat → List Char → List (List Char)
  | 0, _ => []
  | fuel + 1, rem =>
    if rem.length = 0 then []
    else if rem.length ≤ MAX_CHUNK_LENGTH then [rem]
    else
      let splitIndex := (lastIndexOfFrom divClose rem MAX_CHUNK_LENGTH).getD MAX_CHUNK_LENGTH
      rem.take (splitIndex + 6) :: splitChunksGo fuel (rem.drop (splitIndex + 6))

def splitHTMLIntoChunks (html : List Char) : List (List Char) :=
  splitChunksGo html.length html

/-! ### Inference client (`generateSelector`) and rate-limited chunk
processing (`processHTMLChunks`)

The OpenAI completion for one chunk is an oracle value: `noContent` models a
missing `response.choices[0]?.message?.content`, `notJson` a completion that
fails `JSON.parse`, and `json m` a completion that parses to the selector
map `m` (a JSON object whose five promotion keys are each present or
absent).  `generateSelector` here also performs the successful re-parse
done by `processHTMLChunks` (the content already parsed once inside
`generateSelector`), so it returns the parsed map directly. -/

/-- A parsed per-chunk selector map: `Record<string, string>` restricted to
the five promotion fields, each possibly absent. -/
structure SelMap where
  medioPago : Option String
  titulo : Option String
  descripcion : Option String
  fecha : Option String
  condiciones : Option String
deriving DecidableEq

/-- Oracle outcome of one OpenAI chat completion. -/
inductive InferResp where
  | noContent
  | notJson
  | json (m : SelMap)
deriving DecidableEq

/-- `SelectorGenerationError`: the only error `generateSelector` throws
(every other exception is re-wrapped into it by its `catch`). -/
inductive ScrapeErr where
  | selectorGeneration (msg : String)
deriving DecidableEq

def msgNoKey : String := "OPENAI_API_KEY no está configurada"
def msgNoSelector : String := "OpenAI no generó ningún selector"
def msgBadJson : String := "Respuesta no es JSON válido"

/-- `generateSelector`: fails fast when `OPENAI_API_KEY` is absent, fails on
an empty or non-JSON completion, and otherwise returns the parsed selector
map.  All failures are `SelectorGenerationError`s carrying the original
message, as in the source's catch-and-rewrap. -/
def generateSelector (apiKey : Option String) (resp : InferResp) : Except ScrapeErr SelMap :=
  match apiKey with
  | none => .error (.selectorGeneration msgNoKey)
  | some _ =>
    match resp with
    | .noContent => .error (.selectorGeneration msgNoSelector)
    | .notJson => .error (.selectorGeneration msgBadJson)
    | .json m => .ok m

/-- `processHTMLChunks`, value part: each chunk's selector map is collected
when its `generateSelector` call succeeds; a failing chunk is logged and
skipped (the `catch` block), never escalated. -/
def processHTMLChunks (apiKey : Option String) (resps : List InferResp) : List SelMap :=
  resps.filterMap (fun r => (generateSelector apiKey r).toOption)

def MAX_REQUESTS_PER_MINUTE : Nat := 3
def RATE_LIMIT_DELAY : Nat := 20000

/-- Observable events of the `processHTMLChunks` loop: one `call ok` per
`generateSelector` invocation (`ok` = it returned a selector map) and one
`sleep` per `setTimeout(RATE_LIMIT_DELAY)` suspension. -/
inductive ChunkEvent where
  | call (ok : Bool)
  | sleep (ms : Nat)
deriving DecidableEq

/-- Whether the `generateSelector` call for one chunk succeeds. -/
def chunkCallOk (apiKey : Option String) (r : InferResp) : Bool :=
  (generateSelector apiKey r).toOption.isSome

/-- Event trace of the `processHTMLChunks` loop, with the source's
`requestCount` threaded through: the counter is checked against
`MAX_REQUESTS_PER_MINUTE` before each chunk (sleeping and resetting to 0
when exhausted) and incremented only on the success path of the `try`
block — the `catch` path leaves it unchanged. -/
def processChunksTrace (apiKey : Option String) : Nat → List InferResp → List ChunkEvent
  | _, [] => []
  | requestCount, r :: rest =>
    if MAX_REQUESTS_PER_MINUTE ≤ requestCount then
      .sleep RATE_LIMIT_DELAY :: .call (chunkCallOk apiKey r) ::
        processChunksTrace apiKey (if chunkCallOk apiKey r then 1 else 0) rest
    else
      .call (chunkCallOk apiKey r) ::
        processChunksTrace apiKey (requestCount + if chunkCallOk apiKey r then 1 else 0) rest

def isCall : ChunkEvent → Bool
  | .call _ => true
  | .sleep _ => false

def isOkCall : ChunkEvent → Bool
  | .call ok => ok
  | .sleep _ => false

/-- `segWithin counted limit k evs`: in every maximal `sleep`-free segment
of `evs`, at most `limit` events satisfying `counted` occur (`k` already
counted in the current segment). -/
def segWithin (counted : ChunkEvent → Bool) (limit : Nat) : Nat → List ChunkEvent → Bool
  | _, [] => true
  | _, .sleep _ :: rest => segWithin counted limit 0 rest
  | k, .call ok :: rest =>
    if counted (.call ok) then decide (k + 1 ≤ limit) && segWithin counted limit (k + 1) rest
    else segWithin counted limit k rest

/-! ### Selector combination (`combineSelectors`) -/

/-- The five promotion fields (`allKeys` of the source). -/
inductive PromoField where
  | medioPago
  | titulo
  | descripcion
  | fecha
  | condiciones
deriving DecidableEq

def getSel : PromoField → SelMap → Option String
  | .medioPago, m => m.medioPago
  | .titulo, m => m.titulo
  | .descripcion, m => m.descripcion
  | .fecha, m => m.fecha
  | .condiciones, m => m.condiciones

/-- The combined per-document selector set (all five keys always present,
as the source's `forEach` over `allKeys` guarantees). -/
structure CombinedSelectors where
  medioPago : String
  titulo : String
  descripcion : String
  fecha : String
  condiciones : String
deriving DecidableEq

/-- JavaScript `Array.prototype.join(", ")`. -/
def joinComma : List String → String
  | [] => ""
  | [s] => s
  | s :: rest => s ++ ", " ++ joinComma rest

/-- One key of `combineSelectors`:
`selectorsList.map((s) => s[key]).filter(Boolean).join(", ")` — `filter
(Boolean)` drops both absent (`undefined`) and empty-string values. -/
def combineField (l : List SelMap) (f : PromoField) : String :=
  joinComma (((l.map (getSel f)).filterMap id).filter (fun s => s != ""))

def combineSelectors (l : List SelMap) : CombinedSelectors :=
  { medioPago := combineField l .medioPago
    titulo := combineField l .titulo
    descripcion := combineField l .descripcion
    fecha := combineField l .fecha
    condiciones := combineField l .condiciones }

def getCombined : PromoField → CombinedSelectors → String
  | .medioPago, c => c.medioPago
  | .titulo, c => c.titulo
  | .descripcion, c => c.descripcion
  | .fecha, c => c.fecha
  | .condiciones, c => c.condiciones

/-- The non-empty fragments for one field, in original chunk order — the
specification's description of what a combined field value joins. -/
def nonEmptyFragments : List (Option String) → List String
  | [] => []
  | none :: rest => nonEmptyFragments rest
  | some s :: rest => if s = "" then nonEmptyFragments rest else s :: nonEmptyFragments rest

/-! ### Record extraction (the `page.evaluate` callback of `scrapeUrl`) -/

/-- `PromotionRecord` (`Promotion` of `types/promotion.d.ts`), field order
as constructed in the source. -/
structure Promotion where
  medioPago : String
  titulo : String
  descripcion : String
  url : String
  fecha : String
  condiciones : String
deriving DecidableEq

def emptyS : String := ""

/-- JavaScript `.trim()` lifted to `String`. -/
def trimS (s : String) : String := String.mk (trimJS s.toList)

/-- `findElements` of the evaluate callback.  The live DOM is the oracle
`dom`: `dom sel = none` models `querySelectorAll` throwing on an invalid
selector (caught, giving `[]`), and `dom sel = some els` the matched
elements' `textContent` values (`none` = null) in document order.  An empty
selector short-circuits to `[]`. -/
def findElements (dom : String → Option (List (Option String))) (selector : String) :
    List String :=
  if selector = emptyS then []
  else
    match dom selector with
    | none => []
    | some els => els.map (fun t => (t.map trimS).getD emptyS)

/-- The positional zip of the evaluate callback, before filtering: the
candidate at index `i` pairs `titulos[i]` with the `i`-th entry of each
other field array, missing entries defaulting to `""`. -/
def extractCandidates (dom : String → Option (List (Option String)))
    (selectors : CombinedSelectors) (url : String) : List Promotion :=
  let titulos := findElements dom selectors.titulo
  let descripciones := findElements dom selectors.descripcion
  let fechas := findElements dom selectors.fecha
  let condiciones := findElements dom selectors.condiciones
  let mediosPago := findElements dom selectors.medioPago
  titulos.enum.map (fun it =>
    { medioPago := mediosPago.getD it.1 emptyS
      titulo := it.2
      descripcion := descripciones.getD it.1 emptyS
      url := url
      fecha := fechas.getD it.1 emptyS
      condiciones := condiciones.getD it.1 emptyS })

/-- The `.filter((promo) => promo.titulo || promo.descripcion)` predicate:
JavaScript truthiness of a string is non-emptiness. -/
def promoKept (p : Promotion) : Bool := p.titulo != emptyS || p.descripcion != emptyS

def extractPromotions (dom : String → Option (List (Option String)))
    (selectors : CombinedSelectors) (url : String) : List Promotion :=
  (extractCandidates dom selectors url).filter promoKept

/-! ### Per-URL session (`scrapeUrl`) and batch endpoint (`POST`) -/

/-- External nondeterminism of one scrape session: browser launch outcome,
navigation outcome (the rendered `document.body.outerHTML` on success, the
thrown message on failure), the OpenAI credential, the completion returned
for the `i`-th chunk call, the live DOM query oracle, and an optional
failure of the extraction `page.evaluate` call. -/
structure SessionEnv where
  launchOk : Bool
  nav : Except String (List Char)
  apiKey : Option String
  infer : Nat → InferResp
  dom : String → Option (List (Option String))
  evalErr : Option String

/-- `ScrapingResult` of `types/promotion.d.ts`. -/
structure ScrapingResult where
  success : Bool
  data : Option (List Promotion)
  error : Option String
deriving DecidableEq

def msgNoBrowser : String := "No se pudo inicializar el navegador"

/-- `scrapeUrl`: the whole per-URL pipeline.  Every failure is caught by the
session-level `try/catch` and converted into `{success: false, error}`;
the function is total, so a session never throws into the batch.  The
`url` field of each record is `window.location.href`, modelled as the
navigated URL. -/
def scrapeUrl (env : SessionEnv) (url : String) : ScrapingResult :=
  if !env.launchOk then { success := false, data := none, error := some msgNoBrowser }
  else
    match env.nav with
    | .error e => { success := false, data := none, error := some e }
    | .ok bodyHTML =>
      let sanitizedHTML := sanitizeHTML bodyHTML
      let chunks := splitHTMLIntoChunks sanitizedHTML
      let selectorsList := processHTMLChunks env.apiKey ((List.range chunks.length).map env.infer)
      let combinedSelectors := combineSelectors selectorsList
      match env.evalErr with
      | some e => { success := false, data := none, error := some e }
      | none =>
        { success := true
          data := some (extractPromotions env.dom combinedSelectors url)
          error := none }

/-- `promotions` aggregation of `POST`:
`results.filter(r => r.success).flatMap(r => r.data || [])`. -/
def promotionsOf (results : List ScrapingResult) : List Promotion :=
  (results.filter (fun r => r.success)).flatMap (fun r => r.data.getD [])

/-- `errors` aggregation of `POST`:
`results.filter(r => !r.success).map(r => r.error)`. -/
def errorsOf (results : List ScrapingResult) : List (Option String) :=
  (results.filter (fun r => !r.success)).map (fun r => r.error)

/-- JSON values occurring in the route's response bodies. -/
inductive Jv where
  | jstr (s : String)
  | jnum (n : Nat)
  | jpromotions (l : List Promotion)
  | jerrors (l : List (Option String))
deriving DecidableEq

/-- The error classification of the route's `catch` block, as explicit
variants: a `req.json()` failure (`other`), a `z.ZodError` (`zod`), a
`SelectorGenerationError` (`selectorGen`), or any other exception
(`other`). -/
inductive RouteErr where
  | zod (msg : String)
  | selectorGen (msg : String)
  | other (msg : String)
deriving DecidableEq

def msgMinUrls : String := "Se requiere al menos una URL"
def msgMaxUrls : String := "Máximo 10 URLs permitidas"
def msgBadUrl : String := "Invalid url"

/-- `urlSchema.parse`: 1 to 10 entries, each a valid URL (URL validity is
the external `z.string().url()` check, supplied as the oracle
`validUrl`). -/
def parseUrls (validUrl : String → Bool) (urls : List String) : Except String (List String) :=
  if urls.length < 1 then .error msgMinUrls
  else if 10 < urls.length then .error msgMaxUrls
  else if urls.all validUrl then .ok urls
  else .error msgBadUrl

structure HttpResp where
  status : Nat
  body : List (String × Jv)
deriving DecidableEq

def kPromotions : String := "promotions"
def kErrors : String := "errors"
def kExecutionTime : String := "executionTime"
def kError : String := "error"
def kMessage : String := "message"
def kDetails : String := "details"

def msgValidation : String := "Error de validación"
def msgSelectorErr : String := "Error al generar selectores"
def msgInternal : String := "Error interno del servidor"

/-- The 200 body: `{promotions, errors: errors.length > 0 ? errors :
undefined, executionTime}` — a key bound to `undefined` is omitted by the
JSON serializer, so the `errors` key is present iff some session failed.
The elapsed-time key is named `executionTime` in the source. -/
def successBody (results : List ScrapingResult) (executionTime : Nat) : List (String × Jv) :=
  [(kPromotions, Jv.jpromotions (promotionsOf results))]
    ++ (if 0 < (errorsOf results).length then [(kErrors, Jv.jerrors (errorsOf results))] else [])
    ++ [(kExecutionTime, Jv.jnum executionTime)]

/-- The `catch` block of `POST`: `ZodError → 400`, `SelectorGenerationError
→ 422`, anything else `→ 500`; no error yields the 200 body. -/
def respond : Except RouteErr (List (String × Jv)) → HttpResp
  | .ok body => { status := 200, body := body }
  | .error (.zod m) =>
    { status := 400, body := [(kError, Jv.jstr msgValidation), (kDetails, Jv.jstr m)] }
  | .error (.selectorGen m) =>
    { status := 422, body := [(kError, Jv.jstr msgSelectorErr), (kMessage, Jv.jstr m)] }
  | .error (.other m) =>
    { status := 500, body := [(kError, Jv.jstr msgInternal), (kMessage, Jv.jstr m)] }

/-- The `POST` route.  `reqBody` is the outcome of `await req.json()` (a
parse failure is caught as a generic error), `validUrl` the external URL
validity check, `envf` the session environment per URL, and
`executionTime` the externally measured `Date.now() - startTime`.
`Promise.all(urls.map(scrapeUrl))` never rejects because `scrapeUrl` is
total. -/
def POST (reqBody : Except String (List String)) (validUrl : String → Bool)
    (envf : String → SessionEnv) (executionTime : Nat) : HttpResp :=
  respond
    (match reqBody with
    | .error e => .error (RouteErr.other e)
    | .ok urls =>
      match parseUrls validUrl urls with
      | .error e => .error (RouteErr.zod e)
      | .ok okUrls =>
        .ok (successBody (okUrls.map (fun u => scrapeUrl (envf u) u)) executionTime))

/-! ## Chunker lemmas -/

theorem splitChunksGo_flatten :
    ∀ (fuel : Nat) (rem : List Char), rem.length ≤ fuel →
      (splitChunksGo fuel rem).flatten = rem := by
  intro fuel
  induction fuel with
  | zero =>
    intro rem h
    have hr : rem = [] := List.eq_nil_of_length_eq_zero (Nat.le_zero.mp h)
    simp [splitChunksGo, hr]
  | succ n ih =>
    intro rem h
    by_cases h0 : rem.length = 0
    · have hr : rem = [] := List.eq_nil_of_length_eq_zero h0
      simp [splitChunksGo, hr]
    · by_cases h1 : rem.length ≤ MAX_CHUNK_LENGTH
      · simp [splitChunksGo, h0, h1]
      · simp only [splitChunksGo, h0, h1, if_false, if_neg]
        rw [List.flatten_cons]
        rw [ih _ (by rw [List.length_drop]; omega)]
        exact List.take_append_drop _ _

/-- Claim C3: concatenating, in order, all chunks produced by the chunker
reconstructs the input exactly — no character is lost and no span is
missing (in fact the chunks partition the input: nothing is duplicated
either). -/
theorem chunks_concat_reconstructs (l : List Char) :
    (splitHTMLIntoChunks l).flatten = l :=
  splitChunksGo_flatten l.length l le_rfl

theorem splitChunksGo_fuelIrrel :
    ∀ (f1 f2 : Nat) (rem : List Char), rem.length ≤ f1 → rem.length ≤ f2 →
      splitChunksGo f1 rem = splitChunksGo f2 rem := by
  intro f1
  induction f1 with
  | zero =>
    intro f2 rem h1 h2
    have hr : rem = [] := List.eq_nil_of_length_eq_zero (Nat.le_zero.mp h1)
    subst hr
    cases f2 <;> simp [splitChunksGo]
  | succ n ih =>
    intro f2 rem h1 h2
    by_cases h0 : rem.length = 0
    · have hr : rem = [] := List.eq_nil_of_length_eq_zero h0
      subst hr
      cases f2 <;> simp [splitChunksGo]
    · obtain ⟨m, rfl⟩ : ∃ m, f2 = m + 1 := ⟨f2 - 1, by omega⟩
      by_cases hsmall : rem.length ≤ MAX_CHUNK_LENGTH
      · simp [splitChunksGo, h0, hsmall]
      · simp only [splitChunksGo, h0, hsmall, if_false, if_neg]
        congr 1
        exact ih _ _ (by rw [List.length_drop]; omega) (by rw [List.length_drop]; omega)

theorem lastIdxOfGo_le (pat : List Char) (fromIdx : Nat) :
    ∀ (s : List Char) (i : Nat) (best : Option Nat) (j : Nat),
      (∀ k, best = some k → k ≤ fromIdx) →
      lastIdxOfGo pat fromIdx s i best = some j → j ≤ fromIdx := by
  intro s
  induction s with
  | nil =>
    intro i best j hbest hgo
    exact hbest j (by simpa [lastIdxOfGo] using hgo)
  | cons c rest ih =>
    intro i best j hbest hgo
    rw [lastIdxOfGo] at hgo
    by_cases hi : fromIdx < i
    · rw [if_pos hi] at hgo
      exact hbest j hgo
    · rw [if_neg hi] at hgo
      refine ih (i + 1) _ j ?_ hgo
      intro k hk
      by_cases hm : matchesHere pat (c :: rest) = true
      · rw [if_pos hm] at hk
        cases hk
        omega
      · rw [if_neg hm] at hk
        exact hbest k hk

theorem splitIndex_le (rem : List Char) :
    (lastIndexOfFrom divClose rem MAX_CHUNK_LENGTH).getD MAX_CHUNK_LENGTH ≤ MAX_CHUNK_LENGTH := by
  cases hlast : lastIndexOfFrom divClose rem MAX_CHUNK_LENGTH with
  | none => simp
  | some j =>
    simpa using
      lastIdxOfGo_le divClose MAX_CHUNK_LENGTH rem 0 none j (fun k hk => by cases hk) hlast

theorem splitChunksGo_chunk_le :
    ∀ (fuel : Nat) (rem c : List Char), c ∈ splitChunksGo fuel rem →
      c.length ≤ MAX_CHUNK_LENGTH + 6 := by
  intro fuel
  induction fuel with
  | zero =>
    intro rem c hc
    simp [splitChunksGo] at hc
  | succ n ih =>
    intro rem c hc
    by_cases h0 : rem.length = 0
    · simp [splitChunksGo, h0] at hc
    · by_cases h1 : rem.length ≤ MAX_CHUNK_LENGTH
      · simp only [splitChunksGo, h0, h1, if_true, if_false, if_neg, if_pos,
          List.mem_singleton] at hc
        subst hc
        omega
      · simp only [splitChunksGo, h0, h1, if_false, if_neg, List.mem_cons] at hc
        rcases hc with hc | hc
        · subst hc
          have hle := splitIndex_le rem
          have := List.length_take_le
            ((lastIndexOfFrom divClose rem MAX_CHUNK_LENGTH).getD MAX_CHUNK_LENGTH + 6) rem
          omega
        · exact ih _ _ hc

theorem splitHTMLIntoChunks_step (l : List Char) (h : MAX_CHUNK_LENGTH < l.length) :
    splitHTMLIntoChunks l =
      l.take ((lastIndexOfFrom divClose l MAX_CHUNK_LENGTH).getD MAX_CHUNK_LENGTH + 6) ::
        splitHTMLIntoChunks
          (l.drop ((lastIndexOfFrom divClose l MAX_CHUNK_LENGTH).getD MAX_CHUNK_LENGTH + 6)) := by
  unfold splitHTMLIntoChunks
  obtain ⟨n, hn⟩ : ∃ n, l.length = n + 1 := ⟨l.length - 1, by omega⟩
  rw [hn]
  have h0 : l.length ≠ 0 := by omega
  have h1 : ¬ l.length ≤ MAX_CHUNK_LENGTH := by omega
  simp only [splitChunksGo]
  rw [if_neg h0, if_neg h1]
  congr 1
  exact splitChunksGo_fuelIrrel n
    (List.drop ((lastIndexOfFrom divClose l MAX_CHUNK_LENGTH).getD MAX_CHUNK_LENGTH + 6) l).length
    (List.drop ((lastIndexOfFrom divClose l MAX_CHUNK_LENGTH).getD MAX_CHUNK_LENGTH + 6) l)
    (by rw [List.length_drop]; omega) le_rfl

theorem splitHTMLIntoChunks_small (l : List Char) (h0 : l ≠ [])
    (h : l.length ≤ MAX_CHUNK_LENGTH) : splitHTMLIntoChunks l = [l] := by
  unfold splitHTMLIntoChunks
  obtain ⟨n, hn⟩ : ∃ n, l.length = n + 1 :=
    ⟨l.length - 1, by cases l with | nil => exact absurd rfl h0 | cons a t => simp⟩
  rw [hn]
  simp [splitChunksGo, h0, h]

/-- Claim C2 (amended): every produced chunk — not only the non-last ones —
has length at most `MAX_CHUNK_LENGTH + 6`, because the split point is
`splitIndex + 6` with `splitIndex ≤ MAX_CHUNK_LENGTH`; and when no
`</div>` boundary exists within the window the hard split takes the first
`MAX_CHUNK_LENGTH + 6` characters (the limit offset plus the
closing-tag allowance), not `MAX_CHUNK_LENGTH`. -/
theorem chunker_length_bound (l : List Char) :
    (∀ c ∈ splitHTMLIntoChunks l, c.length ≤ MAX_CHUNK_LENGTH + 6) ∧
    (MAX_CHUNK_LENGTH < l.length →
      lastIndexOfFrom divClose l MAX_CHUNK_LENGTH = none →
      splitHTMLIntoChunks l =
        l.take (MAX_CHUNK_LENGTH + 6) ::
          splitHTMLIntoChunks (l.drop (MAX_CHUNK_LENGTH + 6))) := by
  constructor
  · intro c hc
    exact splitChunksGo_chunk_le l.length l c hc
  · intro h hnone
    rw [splitHTMLIntoChunks_step l h, hnone]
    simp

theorem lastIdxOfGo_replicate_a (fromIdx : Nat) :
    ∀ (n i : Nat) (best : Option Nat),
      lastIdxOfGo divClose fromIdx (List.replicate n 'a') i best = best := by
  intro n
  induction n with
  | zero => intro i best; simp [lastIdxOfGo]
  | succ m ih =>
    intro i best
    rw [List.replicate_succ, lastIdxOfGo]
    by_cases hi : fromIdx < i
    · rw [if_pos hi]
    · rw [if_neg hi]
      have hm : matchesHere divClose ('a' :: List.replicate m 'a') = false := by
        have hd : divClose = ['<', '/', 'd', 'i', 'v', '>'] := by decide
        rw [hd]
        simp [matchesHere]
      rw [hm]
      simp only [if_false, Bool.false_eq_true]
      exact ih (i + 1) best

/-- Claim C2 counterexample: on a 20000-character document with no `</div>`
boundary, the first (non-last) chunk has length 15006 > `MAX_CHUNK_LENGTH`
(= 15000), and the hard split happened at offset 15006, not at the limit
offset. -/
theorem c2_counterexample :
    (splitHTMLIntoChunks (List.replicate 20000 'a')).map List.length = [15006, 4994] ∧
    lastIndexOfFrom divClose (List.replicate 20000 'a') MAX_CHUNK_LENGTH = none := by
  have hnone : lastIndexOfFrom divClose (List.replicate 20000 'a') MAX_CHUNK_LENGTH = none :=
    lastIdxOfGo_replicate_a MAX_CHUNK_LENGTH 20000 0 none
  refine ⟨?_, hnone⟩
  have hstep := (chunker_length_bound (List.replicate 20000 'a')).2
    (by rw [List.length_replicate]; norm_num [MAX_CHUNK_LENGTH]) hnone
  rw [hstep]
  have htake : (List.replicate 20000 'a').take (MAX_CHUNK_LENGTH + 6) =
      List.replicate 15006 'a' := by
    rw [List.take_replicate]
    norm_num [MAX_CHUNK_LENGTH]
  have hdrop : (List.replicate 20000 'a').drop (MAX_CHUNK_LENGTH + 6) =
      List.replicate 4994 'a' := by
    rw [List.drop_replicate]
    norm_num [MAX_CHUNK_LENGTH]
  rw [htake, hdrop]
  have hne : List.replicate 4994 'a' ≠ [] := by
    intro hc
    have hlen := congrArg List.length hc
    rw [List.length_replicate] at hlen
    simp at hlen
  rw [splitHTMLIntoChunks_small (List.replicate 4994 'a') hne
    (by rw [List.length_replicate]; norm_num [MAX_CHUNK_LENGTH])]
  simp only [List.map_cons, List.map_nil, List.length_replicate]

theorem c2_witness :
    ((List.replicate 20000 'a').take (MAX_CHUNK_LENGTH + 6)).length ≤ MAX_CHUNK_LENGTH + 6 ∧
    splitHTMLIntoChunks (List.replicate 20000 'a') =
      (List.replicate 20000 'a').take (MAX_CHUNK_LENGTH + 6) ::
        splitHTMLIntoChunks ((List.replicate 20000 'a').drop (MAX_CHUNK_LENGTH + 6)) := by
  have hstep := (chunker_length_bound (List.replicate 20000 'a')).2
    (by rw [List.length_replicate]; norm_num [MAX_CHUNK_LENGTH])
    (lastIdxOfGo_replicate_a MAX_CHUNK_LENGTH 20000 0 none)
  refine ⟨?_, hstep⟩
  exact (chunker_length_bound (List.replicate 20000 'a')).1 _
    (hstep ▸ List.mem_cons_self _ _)

/-! ## Sanitizer lemmas -/

theorem removeBlocksGo_length_le (o cl : List Char) (wb : Bool) :
    ∀ (fuel : Nat) (s : List Char), (removeBlocksGo o cl wb fuel s).length ≤ s.length := by
  intro fuel
  induction fuel with
  | zero => intro s; simp [removeBlocksGo]
  | succ n ih =>
    intro s
    match s with
    | [] => simp [removeBlocksGo]
    | ch :: rest =>
      rw [removeBlocksGo]
      by_cases hm :
          (matchesCI o (ch :: rest) && (!wb || boundaryOk ((ch :: rest).drop o.length))) = true
      · rw [if_pos hm]
        cases hf : findCI cl ((ch :: rest).drop o.length) with
        | some k =>
          refine le_trans (ih ((ch :: rest).drop (o.length + k + cl.length))) ?_
          rw [List.length_drop]
          omega
        | none =>
          simp only [List.length_cons]
          exact Nat.succ_le_succ (ih rest)
      · rw [if_neg hm]
        simp only [List.length_cons]
        exact Nat.succ_le_succ (ih rest)

theorem removeAttrsGo_length_le :
    ∀ (fuel : Nat) (s : List Char), (removeAttrsGo fuel s).length ≤ s.length := by
  intro fuel
  induction fuel with
  | zero => intro s; simp [removeAttrsGo]
  | succ n ih =>
    intro s
    match s with
    | [] => simp [removeAttrsGo]
    | ch :: rest =>
      rw [removeAttrsGo]
      by_cases hsp : jsSpace ch = true
      · rw [if_pos hsp]
        cases ha : tryAttr rest with
        | some k =>
          refine le_trans (ih (rest.drop k)) ?_
          rw [List.length_drop]
          simp only [List.length_cons]
          omega
        | none =>
          simp only [List.length_cons]
          exact Nat.succ_le_succ (ih rest)
      · rw [if_neg hsp]
        simp only [List.length_cons]
        exact Nat.succ_le_succ (ih rest)

theorem removeLineStartsGo_zero (b : Bool) (s : List Char) :
    removeLineStartsGo 0 b s = s := rfl

theorem removeLineStartsGo_succ_nil (n : Nat) (b : Bool) :
    removeLineStartsGo (n + 1) b [] = [] := rfl

theorem removeLineStartsGo_succ_cons (n : Nat) (b : Bool) (c : Char) (rest : List Char) :
    removeLineStartsGo (n + 1) b (c :: rest) =
      (if b then
        match wsRunSplit (c :: rest) with
        | some k => removeLineStartsGo n true ((c :: rest).drop k)
        | none => c :: removeLineStartsGo n (lineTerm c) rest
      else c :: removeLineStartsGo n (lineTerm c) rest) := rfl

theorem removeLineStartsGo_length_le :
    ∀ (fuel : Nat) (b : Bool) (s : List Char),
      (removeLineStartsGo fuel b s).length ≤ s.length := by
  intro fuel
  induction fuel with
  | zero => intro b s; rw [removeLineStartsGo_zero]
  | succ n ih =>
    intro b s
    match s with
    | [] => rw [removeLineStartsGo_succ_nil]
    | ch :: rest =>
      rw [removeLineStartsGo_succ_cons]
      by_cases hb : b = true
      · rw [if_pos hb]
        cases hw : wsRunSplit (ch :: rest) with
        | some k =>
          simp only [hw]
          refine le_trans (ih true ((ch :: rest).drop k)) ?_
          rw [List.length_drop]
          omega
        | none =>
          simp only [hw, List.length_cons]
          exact Nat.succ_le_succ (ih (lineTerm ch) rest)
      · rw [if_neg hb]
        simp only [List.length_cons]
        exact Nat.succ_le_succ (ih (lineTerm ch) rest)

theorem collapseWsGo_length_le :
    ∀ (fuel : Nat) (s : List Char), (collapseWsGo fuel s).length ≤ s.length := by
  intro fuel
  induction fuel with
  | zero => intro s; simp [collapseWsGo]
  | succ n ih =>
    intro s
    match s with
    | [] => simp [collapseWsGo]
    | ch :: rest =>
      rw [collapseWsGo]
      by_cases hsp : jsSpace ch = true
      · rw [if_pos hsp]
        simp only [List.length_cons]
        refine Nat.succ_le_succ (le_trans (ih (rest.dropWhile jsSpace)) ?_)
        exact (List.dropWhile_sublist _).length_le
      · rw [if_neg hsp]
        simp only [List.length_cons]
        exact Nat.succ_le_succ (ih rest)

theorem trimJS_length_le (s : List Char) : (trimJS s).length ≤ s.length := by
  unfold trimJS
  rw [List.length_reverse]
  refine le_trans (List.dropWhile_sublist _).length_le ?_
  rw [List.length_reverse]
  exact (List.dropWhile_sublist _).length_le

/-- Claim C8 (amended): the sanitizer is length-nonincreasing (its output
is never longer than its input), but it is not idempotent — see the
counterexample, in which removing a comment reassembles a `<script>`
element that only the second pass can remove. -/
theorem sanitize_length_nonincreasing (l : List Char) :
    (sanitizeHTML l).length ≤ l.length := by
  unfold sanitizeHTML removeBlocks removeAttrs removeLineStarts collapseWs
  refine le_trans (trimJS_length_le _) ?_
  refine le_trans (collapseWsGo_length_le _ _) ?_
  refine le_trans (removeLineStartsGo_length_le _ _ _) ?_
  refine le_trans (removeAttrsGo_length_le _ _) ?_
  refine le_trans (removeBlocksGo_length_le _ _ _ _ _) ?_
  refine le_trans (removeBlocksGo_length_le _ _ _ _ _) ?_
  refine le_trans (removeBlocksGo_length_le _ _ _ _ _) ?_
  refine le_trans (removeBlocksGo_length_le _ _ _ _ _) ?_
  refine le_trans (removeBlocksGo_length_le _ _ _ _ _) ?_
  refine le_trans (removeBlocksGo_length_le _ _ _ _ _) ?_
  refine le_trans (removeBlocksGo_length_le _ _ _ _ _) ?_
  exact removeBlocksGo_length_le _ _ _ _ _

def c8Input : List Char := "<scr<!-- -->ipt>x</script>".toList

/-- Claim C8 counterexample: sanitizing `<scr<!-- -->ipt>x</script>` once
yields `<script>x</script>` (comment removal runs after script removal and
splices the surrounding text into a script element), and sanitizing a
second time yields the empty document — so `sanitize ∘ sanitize ≠
sanitize` at this input. -/
theorem c8_counterexample :
    sanitizeHTML (sanitizeHTML c8Input) ≠ sanitizeHTML c8Input := by decide

/-! ## Extraction and combiner lemmas -/

/-- Claim C4: a promotion record appears in the extraction output iff it is
one of the positional candidates and its `titulo` or `descripcion` is
non-empty (the field arrays already hold trimmed text, so the comparison
is after trimming); candidates with both fields empty are dropped, and
every candidate with one of them non-empty is kept. -/
theorem extraction_keeps_iff_nonempty (dom : String → Option (List (Option String)))
    (selectors : CombinedSelectors) (url : String) (p : Promotion) :
    p ∈ extractPromotions dom selectors url ↔
      p ∈ extractCandidates dom selectors url ∧
        (p.titulo ≠ "" ∨ p.descripcion ≠ "") := by
  unfold extractPromotions
  rw [List.mem_filter]
  simp [promoKept, emptyS, bne_iff_ne]

theorem filter_filterMap_eq_nonEmptyFragments :
    ∀ xs : List (Option String),
      (xs.filterMap id).filter (fun s => s != "") = nonEmptyFragments xs := by
  intro xs
  induction xs with
  | nil => rfl
  | cons x rest ih =>
    cases x with
    | none => simpa [nonEmptyFragments] using ih
    | some s =>
      by_cases hs : s = ""
      · subst hs
        simpa [nonEmptyFragments] using ih
      · simp [nonEmptyFragments, hs, ih]

theorem nonEmptyFragments_all_empty :
    ∀ xs : List (Option String), (∀ x ∈ xs, x = none ∨ x = some "") →
      nonEmptyFragments xs = [] := by
  intro xs
  induction xs with
  | nil => intro _; rfl
  | cons x rest ih =>
    intro h
    rcases h x (List.mem_cons_self x rest) with hx | hx
    · subst hx
      exact ih (fun y hy => h y (List.mem_cons_of_mem _ hy))
    · subst hx
      simpa [nonEmptyFragments] using ih (fun y hy => h y (List.mem_cons_of_mem _ hy))

theorem getCombined_combineSelectors (l : List SelMap) (f : PromoField) :
    getCombined f (combineSelectors l) = combineField l f := by
  cases f <;> rfl

/-- Claim C7: for each of the five fields, the combined selector equals the
comma-join (in original chunk order) of exactly the per-chunk fragments
that are present and non-empty; a field empty or absent in every chunk
combines to the empty string. -/
theorem combine_joins_nonempty_fragments (l : List SelMap) (f : PromoField) :
    getCombined f (combineSelectors l) =
      joinComma (nonEmptyFragments (l.map (getSel f))) ∧
    ((∀ m ∈ l, getSel f m = none ∨ getSel f m = some "") →
      getCombined f (combineSelectors l) = "") := by
  have hbase : getCombined f (combineSelectors l) =
      joinComma (nonEmptyFragments (l.map (getSel f))) := by
    rw [getCombined_combineSelectors]
    unfold combineField
    rw [filter_filterMap_eq_nonEmptyFragments]
  refine ⟨hbase, fun h => ?_⟩
  rw [hbase, nonEmptyFragments_all_empty (l.map (getSel f)) ?_]
  · rfl
  · intro x hx
    rcases List.mem_map.mp hx with ⟨m, hm, rfl⟩
    exact h m hm

def selMapW : SelMap :=
  { medioPago := some "", titulo := some "", descripcion := none,
    fecha := none, condiciones := some "" }

theorem c7_witness : getCombined PromoField.titulo (combineSelectors [selMapW]) = "" :=
  (combine_joins_nonempty_fragments [selMapW] PromoField.titulo).2 (by decide)

/-! ## Rate-limiting lemmas -/

def apiKeyW : String := "sk-test"

/-- Claim C5 counterexample: with a configured credential and four chunks
whose completions all fail to parse, four `generateSelector` calls (four
real inference-service requests) are made with no suspension at all —
`requestCount` is only incremented on success, so the budget of
`MAX_REQUESTS_PER_MINUTE` = 3 calls between suspensions is exceeded. -/
theorem c5_counterexample :
    segWithin isCall MAX_REQUESTS_PER_MINUTE 0
      (processChunksTrace (some apiKeyW) 0
        [InferResp.notJson, InferResp.notJson, InferResp.notJson, InferResp.notJson]) =
      false := by decide

theorem processChunksTrace_segWithin_aux (apiKey : Option String) :
    ∀ (resps : List InferResp) (rc : Nat), rc ≤ MAX_REQUESTS_PER_MINUTE →
      segWithin isOkCall MAX_REQUESTS_PER_MINUTE rc (processChunksTrace apiKey rc resps) =
        true := by
  intro resps
  induction resps with
  | nil => intro rc _; rfl
  | cons r rest ih =>
    intro rc hrc
    by_cases hfull : MAX_REQUESTS_PER_MINUTE ≤ rc
    · rw [processChunksTrace, if_pos hfull]
      cases hok : chunkCallOk apiKey r with
      | true =>
        show (decide (0 + 1 ≤ MAX_REQUESTS_PER_MINUTE) &&
            segWithin isOkCall MAX_REQUESTS_PER_MINUTE (0 + 1)
              (processChunksTrace apiKey 1 rest)) = true
        rw [ih 1 (by norm_num [MAX_REQUESTS_PER_MINUTE])]
        decide
      | false =>
        exact ih 0 (by norm_num [MAX_REQUESTS_PER_MINUTE])
    · rw [processChunksTrace, if_neg hfull]
      have hlt : rc + 1 ≤ MAX_REQUESTS_PER_MINUTE := by omega
      cases hok : chunkCallOk apiKey r with
      | true =>
        show (decide (rc + 1 ≤ MAX_REQUESTS_PER_MINUTE) &&
            segWithin isOkCall MAX_REQUESTS_PER_MINUTE (rc + 1)
              (processChunksTrace apiKey (rc + 1) rest)) = true
        rw [ih (rc + 1) hlt, decide_eq_true hlt]
        rfl
      | false =>
        exact ih rc (by omega)

/-- Claim C5 (amended): between any two suspensions of the
`processHTMLChunks` loop at most `MAX_REQUESTS_PER_MINUTE` (= 3)
*successful* inference calls occur, and after the budget is exhausted the
caller suspends for `RATE_LIMIT_DELAY` before resetting the counter —
but failed calls never increment `requestCount`, so arbitrarily many
failing calls can run with no suspension (see the counterexample). -/
theorem rate_limit_bounds_successful_calls (apiKey : Option String)
    (resps : List InferResp) :
    segWithin isOkCall MAX_REQUESTS_PER_MINUTE 0 (processChunksTrace apiKey 0 resps) =
      true :=
  processChunksTrace_segWithin_aux apiKey resps 0 (by norm_num [MAX_REQUESTS_PER_MINUTE])

/-! ## Batch aggregation and endpoint lemmas -/

/-- Claim C1: for a batch of N URLs of which exactly K sessions fail, the
`errors` list has length exactly K, and `promotions` contains exactly the
records of the successful sessions.  `scrapeUrl` is a total function (its
session-level `try/catch` converts every failure into a `ScrapingResult`),
so a per-URL failure can never raise an exception at the batch level. -/
theorem batch_partial_failure_aggregation (envf : String → SessionEnv)
    (urls : List String) (K : Nat)
    (hK : ((urls.map (fun u => scrapeUrl (envf u) u)).countP (fun r => !r.success)) = K) :
    (errorsOf (urls.map (fun u => scrapeUrl (envf u) u))).length = K ∧
    (∀ p, p ∈ promotionsOf (urls.map (fun u => scrapeUrl (envf u) u)) ↔
      ∃ r ∈ urls.map (fun u => scrapeUrl (envf u) u),
        r.success = true ∧ p ∈ r.data.getD []) := by
  constructor
  · rw [← hK]
    unfold errorsOf
    rw [List.length_map, List.countP_eq_length_filter]
  · intro p
    unfold promotionsOf
    constructor
    · intro hp
      rcases List.mem_flatMap.mp hp with ⟨r, hr, hpr⟩
      rcases List.mem_filter.mp hr with ⟨hrmem, hrsucc⟩
      exact ⟨r, hrmem, hrsucc, hpr⟩
    · rintro ⟨r, hrmem, hrsucc, hpr⟩
      exact List.mem_flatMap.mpr ⟨r, List.mem_filter.mpr ⟨hrmem, hrsucc⟩, hpr⟩

def urlA : String := "https://a.example/promos"
def urlB : String := "https://b.example/promos"

/-- A session whose browser launch fails. -/
def envLaunchFail : SessionEnv :=
  { launchOk := false, nav := .error emptyS, apiKey := none,
    infer := fun _ => .noContent, dom := fun _ => none, evalErr := none }

/-- A session that renders an empty page, with a configured credential. -/
def envEmptyPage : SessionEnv :=
  { launchOk := true, nav := .ok [], apiKey := some apiKeyW,
    infer := fun _ => .noContent, dom := fun _ => none, evalErr := none }

def envfW : String → SessionEnv := fun u => if u = urlA then envEmptyPage else envLaunchFail

theorem c1_witness :
    (errorsOf ([urlA, urlB].map (fun u => scrapeUrl (envfW u) u))).length = 1 :=
  (batch_partial_failure_aggregation envfW [urlA, urlB] 1 (by decide)).1

theorem processHTMLChunks_noKey (resps : List InferResp) :
    processHTMLChunks none resps = [] := by
  induction resps with
  | nil => rfl
  | cons r rest ih =>
    unfold processHTMLChunks at ih ⊢
    rw [List.filterMap_cons]
    exact ih

/-- Claim C10: whenever inference produced no selector map for any chunk of
the document — the per-chunk selector-map list is empty, whatever the
mechanism (missing credential, or a configured key whose every chunk
completion fails to parse) — the session still completes with
`success: true` and an empty records list: the combined map binds all
five keys to the empty string, extraction matches nothing, and the
outcome is not a failure. -/
theorem no_inference_results_still_success (env : SessionEnv) (url : String)
    (html : List Char) (hl : env.launchOk = true) (hn : env.nav = .ok html)
    (he : env.evalErr = none)
    (hempty : processHTMLChunks env.apiKey
      ((List.range (splitHTMLIntoChunks (sanitizeHTML html)).length).map env.infer) = []) :
    (∀ f, getCombined f (combineSelectors []) = "") ∧
    scrapeUrl env url = { success := true, data := some [], error := none } := by
  refine ⟨fun f => by cases f <;> rfl, ?_⟩
  unfold scrapeUrl
  rw [hl, hn, he]
  simp only [hempty]
  rfl

def envNoKeyW : SessionEnv :=
  { launchOk := true, nav := .ok ("<div>p</div>".toList), apiKey := none,
    infer := fun _ => .json selMapW, dom := fun _ => none, evalErr := none }

/-- A session with a configured credential whose every chunk completion
fails `JSON.parse` — the other route to an empty selector-map list. -/
def envBadJsonW : SessionEnv :=
  { launchOk := true, nav := .ok ("<div>p</div>".toList), apiKey := some apiKeyW,
    infer := fun _ => .notJson, dom := fun _ => none, evalErr := none }

theorem c10_witness :
    scrapeUrl envBadJsonW urlA = { success := true, data := some [], error := none } :=
  (no_inference_results_still_success envBadJsonW urlA ("<div>p</div>".toList)
    rfl rfl rfl (by decide)).2

/-- Claim C6 counterexample: a valid one-URL batch request with the
inference credential absent returns HTTP 200 (the missing-credential
`SelectorGenerationError` is swallowed by the per-chunk `catch` in
`processHTMLChunks`, so it never reaches the route's 422 branch), not the
422 the claim asserts. -/
theorem c6_counterexample :
    (POST (.ok [urlA]) (fun _ => true) (fun _ => envNoKeyW) 3).status = 200 ∧
    (POST (.ok [urlA]) (fun _ => true) (fun _ => envNoKeyW) 3).status ≠ 422 := by
  constructor
  · decide
  · decide

/-- Claim C6 (amended): when the inference credential is absent,
`generateSelector` does fail fast with a configuration error
(`SelectorGenerationError` carrying the missing-key message), but that
error is absorbed by the per-chunk handler exactly like any other chunk
failure — the selector list comes back empty and no 422 is surfaced: a
well-formed batch request always yields HTTP 200.  Per-chunk inference
failures likewise never produce a 422. -/
theorem missing_credential_absorbed (validUrl : String → Bool)
    (envf : String → SessionEnv) (t : Nat) (urls : List String)
    (h : parseUrls validUrl urls = .ok urls) :
    (POST (.ok urls) validUrl envf t).status = 200 ∧
    (∀ resps, processHTMLChunks none resps = []) ∧
    (∀ r, generateSelector none r = .error (.selectorGeneration msgNoKey)) := by
  refine ⟨?_, fun resps => processHTMLChunks_noKey resps, fun r => rfl⟩
  unfold POST
  simp only [h]
  rfl

theorem c6_witness :
    (POST (.ok [urlA]) (fun _ => true) (fun _ => envEmptyPage) 5).status = 200 :=
  (missing_credential_absorbed (fun _ => true) (fun _ => envEmptyPage) 5 [urlA] rfl).1

/-- Claim C9 counterexample: the 200 body of a successful batch has keys
`promotions` and `executionTime` — there is no `executionTimeMs` key; the
elapsed-time field is named `executionTime` in the source. -/
theorem c9_counterexample :
    (POST (.ok [urlA]) (fun _ => true) (fun _ => envEmptyPage) 7).body.map Prod.fst =
      [kPromotions, kExecutionTime] ∧
    ("executionTimeMs") ∉
      (POST (.ok [urlA]) (fun _ => true) (fun _ => envEmptyPage) 7).body.map Prod.fst := by
  constructor
  · decide
  · decide

/-- Claim C9 (amended): for every well-formed batch request the response is
200 with body `{promotions, errors?, executionTime}`: the `errors` key is
present exactly when some session failed, and the elapsed-time field is
named `executionTime`, not `executionTimeMs`. -/
theorem response_shape_fields (validUrl : String → Bool)
    (envf : String → SessionEnv) (t : Nat) (urls : List String)
    (h : parseUrls validUrl urls = .ok urls) :
    (POST (.ok urls) validUrl envf t).status = 200 ∧
    (POST (.ok urls) validUrl envf t).body.map Prod.fst =
      (if 0 < (errorsOf (urls.map (fun u => scrapeUrl (envf u) u))).length
        then [kPromotions, kErrors, kExecutionTime]
        else [kPromotions, kExecutionTime]) ∧
    ("executionTimeMs") ∉ (POST (.ok urls) validUrl envf t).body.map Prod.fst := by
  have hpost : POST (.ok urls) validUrl envf t =
      { status := 200,
        body := successBody (urls.map (fun u => scrapeUrl (envf u) u)) t } := by
    unfold POST
    simp only [h]
    rfl
  rw [hpost]
  refine ⟨rfl, ?_, ?_⟩
  · unfold successBody
    by_cases h0 : 0 < (errorsOf (urls.map (fun u => scrapeUrl (envf u) u))).length
    · rw [if_pos h0, if_pos h0]
      rfl
    · rw [if_neg h0, if_neg h0]
      rfl
  · unfold successBody
    by_cases h0 : 0 < (errorsOf (urls.map (fun u => scrapeUrl (envf u) u))).length
    · rw [if_pos h0]
      simp [kPromotions, kErrors, kExecutionTime]
    · rw [if_neg h0]
      simp [kPromotions, kExecutionTime]

theorem c9_witness :
    (POST (.ok [urlB]) (fun _ => true) (fun _ => envLaunchFail) 9).body.map Prod.fst =
      [kPromotions, kErrors, kExecutionTime] := by
  have h := (response_shape_fields (fun _ => true) (fun _ => envLaunchFail) 9 [urlB] rfl).2.1
  rw [h]
  decide
